import Mathlib

/-!
Verification of the facility-location optimizer.

The repository clusters 2-D customer points around user-chosen initial
facility positions (Lloyd's algorithm / K-Means, fixed initialization,
single run), stores the result in a data manager, and draws service-area
circles whose radii are the maximum distance from each facility to the
customers assigned to it.

Coordinates are modelled with exact rationals; comparisons of Euclidean
distances are carried out on squared distances, which is equivalent.
-/

namespace FacilityLocation

/-- A 2-D point with rational coordinates, modelling an `(x, y)` tuple. -/
abbrev Point : Type := ℚ × ℚ

/-- Squared Euclidean distance between two points. -/
def sqDist (p q : Point) : ℚ :=
  (p.1 - q.1) ^ 2 + (p.2 - q.2) ^ 2

/-- Index and squared distance of the centroid nearest to `c`, among the
given centroid list; `none` for the empty list.  On a tie the earlier
(lower-index) centroid wins, because `≤` prefers the head. -/
def nearestAux (c : Point) : List Point → Option (ℕ × ℚ)
  | [] => none
  | z :: zs =>
    match nearestAux c zs with
    | none => some (0, sqDist c z)
    | some (j, v) => if sqDist c z ≤ v then some (0, sqDist c z) else some (j + 1, v)

/-- Index of the centroid nearest to `c` (ties broken by lowest index). -/
def nearestIdx (zs : List Point) (c : Point) : ℕ :=
  match nearestAux c zs with
  | none => 0
  | some (j, _) => j

/-- One customer-to-centroid assignment step: each customer is labelled with
the index of its nearest centroid. -/
def assignLabels (cs zs : List Point) : List ℕ :=
  cs.map (nearestIdx zs)

/-- The customers whose label is `i`, in their original order.  This models
the boolean-mask selection `customer_data[cluster_labels == i]` used in
`plotter.py`. -/
def clusterPoints (cs : List Point) (ls : List ℕ) (i : ℕ) : List Point :=
  ((cs.zip ls).filter (fun p => p.2 == i)).map Prod.fst

/-- Arithmetic mean of a list of points (componentwise). -/
def meanPoint (pts : List Point) : Point :=
  ((pts.map Prod.fst).sum / (pts.length : ℚ), (pts.map Prod.snd).sum / (pts.length : ℚ))

/-- Modelled from the spec: one Lloyd iteration of the clustering library
(`sklearn.cluster.KMeans`, whose code is not part of this repository).
Each customer is assigned to its nearest centroid, then every centroid is
replaced by the arithmetic mean of its assigned customers; a centroid with
no assigned customers keeps its previous position (spec section 4.1,
step 2). -/
def lloydStep (cs zs : List Point) : List Point :=
  (List.range zs.length).map (fun i =>
    if clusterPoints cs (assignLabels cs zs) i = [] then zs.getD i (0, 0)
    else meanPoint (clusterPoints cs (assignLabels cs zs) i))

/-- Modelled from the spec: iterate `lloydStep` until the centroids stop
moving or the iteration cap is exhausted (spec section 4.1, step 2). -/
def lloydIter : ℕ → List Point → List Point → List Point
  | 0, _, zs => zs
  | n + 1, cs, zs =>
    if lloydStep cs zs = zs then zs else lloydIter n cs (lloydStep cs zs)

/-- The iteration cap of the clustering library (its documented default). -/
def maxIter : ℕ := 300

/-- Modelled from the spec: `Optimizer.run_kmeans` from `optimizer.py`.
The body of `KMeans(n_clusters=k, init=initial_locations, n_init=1,
random_state=0).fit` is library code absent from the repository, so it is
modelled by spec section 4.1: the centroids start at exactly the given
initial facility coordinates, Lloyd steps run until convergence or the
iteration cap, and the returned labels assign every customer to its
nearest final centroid. -/
def run_kmeans (customer_data initial_facility_locations : List Point) :
    List Point × List ℕ :=
  (lloydIter maxIter customer_data initial_facility_locations,
   assignLabels customer_data (lloydIter maxIter customer_data initial_facility_locations))

/-- Modelled from the spec: the fallible clustering call.  Spec section 4.1
lists the failure conditions: empty customer set, empty facility set, or
more centroids than customers; otherwise the call returns the `run_kmeans`
result. -/
def run_kmeans_opt (customer_data initial_facility_locations : List Point) :
    Option (List Point × List ℕ) :=
  if customer_data = [] ∨ initial_facility_locations = [] ∨
      customer_data.length < initial_facility_locations.length then none
  else some (run_kmeans customer_data initial_facility_locations)

/-- Squared service radius of facility `i` at position `z`: the largest
squared distance from `z` to a customer labelled `i`, and `0` when no
customer is labelled `i`.  This embeds the `radii` computation of
`Plotter._plot_optimal_facilities` (`plotter.py`, lines 122-129), carried
on squared distances so that it stays in ℚ; the radius the code draws is
its square root. -/
def radiusSqOf (cs : List Point) (ls : List ℕ) (z : Point) (i : ℕ) : ℚ :=
  if clusterPoints cs ls i = [] then 0
  else ((clusterPoints cs ls i).map (fun p => sqDist p z)).foldr max 0

/-- Embedding of a rational point into the real plane. -/
def ratPt (p : Point) : ℝ × ℝ := ((p.1 : ℝ), (p.2 : ℝ))

/-- The state held by `DataManager` (`data_manager.py`): the two point
sequences and the optional optimization result. -/
structure DataManager : Type where
  customer_data : List Point
  initial_facility_locations : List Point
  optimal_facility_locations : Option (List Point)
  cluster_labels : Option (List ℕ)
  deriving DecidableEq

/-- `DataManager.__init__`: empty lists, no result. -/
def DataManager.init : DataManager :=
  ⟨[], [], none, none⟩

/-- `DataManager.add_customer`. -/
def DataManager.add_customer (dm : DataManager) (x y : ℚ) : DataManager :=
  { dm with customer_data := dm.customer_data ++ [(x, y)] }

/-- `DataManager.add_initial_facility`. -/
def DataManager.add_initial_facility (dm : DataManager) (x y : ℚ) : DataManager :=
  { dm with initial_facility_locations := dm.initial_facility_locations ++ [(x, y)] }

/-- `DataManager.clear_customers`: the source resets only `customer_data`. -/
def DataManager.clear_customers (dm : DataManager) : DataManager :=
  { dm with customer_data := [] }

/-- `DataManager.clear_facilities`: the source resets the initial facility
list and both result fields. -/
def DataManager.clear_facilities (dm : DataManager) : DataManager :=
  { dm with initial_facility_locations := []
            optimal_facility_locations := none
            cluster_labels := none }

/-- `DataManager.set_optimal_facilities`. -/
def DataManager.set_optimal_facilities (dm : DataManager)
    (locations : List Point) (labels : List ℕ) : DataManager :=
  { dm with optimal_facility_locations := some locations
            cluster_labels := some labels }

/-- The successful branch of `DataManager.import_customers_excel`: the
parsed rows are appended to `customer_data`. -/
def DataManager.importCustomersRows (dm : DataManager) (rows : List Point) : DataManager :=
  { dm with customer_data := dm.customer_data ++ rows }

/-- The successful branch of `DataManager.import_facilities_excel`: the
parsed rows are appended to `initial_facility_locations`. -/
def DataManager.importFacilitiesRows (dm : DataManager) (rows : List Point) : DataManager :=
  { dm with initial_facility_locations := dm.initial_facility_locations ++ rows }

/-- The user-visible message produced by `KMeansApp._run_calculation`. -/
inductive CalcMsg : Type where
  | warnNoCustomers : CalcMsg
  | warnNoFacilities : CalcMsg
  | calcError : CalcMsg
  | calcDone : CalcMsg
  deriving DecidableEq

/-- `KMeansApp._run_calculation` (`gui.py`, lines 199-219): warn and do
nothing when either input list is empty; otherwise run the clustering call,
store the result on success, and on failure show an error and leave the
data manager untouched. -/
def run_calculation (dm : DataManager) : DataManager × CalcMsg :=
  if dm.customer_data = [] then (dm, CalcMsg.warnNoCustomers)
  else if dm.initial_facility_locations = [] then (dm, CalcMsg.warnNoFacilities)
  else
    match run_kmeans_opt dm.customer_data dm.initial_facility_locations with
    | some (locations, labels) =>
        (dm.set_optimal_facilities locations labels, CalcMsg.calcDone)
    | none => (dm, CalcMsg.calcError)

/-- The invariant checked in claim C10: the two result fields are either
both absent or both present. -/
def resultFieldsAligned (dm : DataManager) : Prop :=
  dm.optimal_facility_locations.isSome = dm.cluster_labels.isSome

/-- The data-manager state reached by adding customers (0,0) and (2,0) and
facility (1,0), calculating, clearing the customers, and then adding the
customer (5,5).  Used to exhibit the stale result kept by
`clear_customers`. -/
def staleResultState : DataManager :=
  (((run_calculation
      (((DataManager.init.add_customer 0 0).add_customer 2 0).add_initial_facility
        1 0)).1).clear_customers).add_customer 5 5

/-! ## Helper lemmas -/

theorem sqDist_nonneg (p q : Point) : 0 ≤ sqDist p q :=
  add_nonneg (sq_nonneg _) (sq_nonneg _)

theorem nearestAux_spec (c : Point) (zs : List Point) (hzs : zs ≠ []) :
    ∃ j v, nearestAux c zs = some (j, v) ∧ j < zs.length ∧
      v = sqDist c (zs.getD j (0, 0)) ∧
      (∀ i, i < zs.length → v ≤ sqDist c (zs.getD i (0, 0))) ∧
      (∀ i, i < j → v < sqDist c (zs.getD i (0, 0))) := by
  induction zs with
  | nil => exact absurd rfl hzs
  | cons z zs ih =>
    rcases eq_or_ne zs [] with rfl | hne
    · refine ⟨0, sqDist c z, rfl, Nat.one_pos, by simp, ?_, ?_⟩
      · intro i hi
        simp only [List.length_cons, List.length_nil] at hi
        have : i = 0 := by omega
        subst this
        simp
      · intro i hi
        exact absurd hi (Nat.not_lt_zero i)
    · obtain ⟨j, v, haux, hj, hv, hmin, hstr⟩ := ih hne
      by_cases hle : sqDist c z ≤ v
      · refine ⟨0, sqDist c z, ?_, Nat.succ_pos _, by simp, ?_, ?_⟩
        · simp only [nearestAux, haux, if_pos hle]
        · intro i hi
          cases i with
          | zero => simp
          | succ k =>
            simp only [List.getD_cons_succ]
            exact le_trans hle (hmin k (by simpa using hi))
        · intro i hi
          exact absurd hi (Nat.not_lt_zero i)
      · push_neg at hle
        refine ⟨j + 1, v, ?_, Nat.succ_lt_succ hj, by simpa using hv, ?_, ?_⟩
        · simp only [nearestAux, haux, if_neg (not_le.mpr hle)]
        · intro i hi
          cases i with
          | zero => simpa using le_of_lt hle
          | succ k =>
            simp only [List.getD_cons_succ]
            exact hmin k (by simpa using hi)
        · intro i hi
          cases i with
          | zero => simpa using hle
          | succ k =>
            simp only [List.getD_cons_succ]
            exact hstr k (by simpa using hi)

theorem nearestIdx_spec (zs : List Point) (c : Point) (hzs : zs ≠ []) :
    nearestIdx zs c < zs.length ∧
      (∀ j, j < zs.length →
        sqDist c (zs.getD (nearestIdx zs c) (0, 0)) ≤ sqDist c (zs.getD j (0, 0))) ∧
      (∀ j, j < nearestIdx zs c →
        sqDist c (zs.getD (nearestIdx zs c) (0, 0)) < sqDist c (zs.getD j (0, 0))) := by
  obtain ⟨j, v, haux, hj, hv, hmin, hstr⟩ := nearestAux_spec c zs hzs
  have hidx : nearestIdx zs c = j := by simp [nearestIdx, haux]
  rw [hidx, ← hv]
  exact ⟨hj, hmin, hstr⟩

theorem lloydStep_length (cs zs : List Point) : (lloydStep cs zs).length = zs.length := by
  simp [lloydStep]

theorem lloydStep_getD (cs zs : List Point) (i : ℕ) (hi : i < zs.length) :
    (lloydStep cs zs).getD i (0, 0) =
      (if clusterPoints cs (assignLabels cs zs) i = [] then zs.getD i (0, 0)
       else meanPoint (clusterPoints cs (assignLabels cs zs) i)) := by
  have hlen : i < (lloydStep cs zs).length := by rw [lloydStep_length]; exact hi
  rw [List.getD_eq_getElem _ _ hlen]
  simp [lloydStep, hi]

theorem lloydIter_succ (n : ℕ) (cs zs : List Point) :
    lloydIter (n + 1) cs zs =
      if lloydStep cs zs = zs then zs else lloydIter n cs (lloydStep cs zs) := rfl

theorem lloydIter_fix (cs zs : List Point) (hfix : lloydStep cs zs = zs) :
    ∀ n, lloydIter n cs zs = zs := by
  intro n
  cases n with
  | zero => rfl
  | succ n => simp [lloydIter, hfix]

theorem lloydIter_trace (cs : List Point) (n : ℕ) :
    ∀ zs : List Point, ∃ t, t ≤ n ∧ lloydIter n cs zs = (lloydStep cs)^[t] zs ∧
      (lloydStep cs (lloydIter n cs zs) = lloydIter n cs zs ∨ t = n) := by
  induction n with
  | zero => exact fun zs => ⟨0, le_refl 0, rfl, Or.inr rfl⟩
  | succ n ih =>
    intro zs
    by_cases hfix : lloydStep cs zs = zs
    · exact ⟨0, Nat.zero_le _, by simp [lloydIter, hfix],
        Or.inl (by simp [lloydIter, hfix])⟩
    · obtain ⟨t, ht, heq, hconv⟩ := ih (lloydStep cs zs)
      have hstep : lloydIter (n + 1) cs zs = lloydIter n cs (lloydStep cs zs) := by
        simp [lloydIter, hfix]
      refine ⟨t + 1, Nat.succ_le_succ ht, ?_, ?_⟩
      · rw [hstep, heq, Function.iterate_succ_apply]
      · rw [hstep]
        rcases hconv with h | h
        · exact Or.inl h
        · exact Or.inr (by omega)

theorem assignLabels_singleton (cs : List Point) (z : Point) :
    assignLabels cs [z] = List.replicate cs.length 0 := by
  induction cs with
  | nil => rfl
  | cons c cs ih =>
    show nearestIdx [z] c :: List.map (nearestIdx [z]) cs = 0 :: List.replicate cs.length 0
    rw [show nearestIdx [z] c = 0 from rfl]
    exact congrArg (List.cons 0) ih

theorem clusterPoints_replicate_zero (cs : List Point) :
    clusterPoints cs (List.replicate cs.length 0) 0 = cs := by
  induction cs with
  | nil => rfl
  | cons c cs ih => simpa [clusterPoints, List.replicate] using ih

theorem lloydStep_singleton (cs : List Point) (hcs : cs ≠ []) (z : Point) :
    lloydStep cs [z] = [meanPoint cs] := by
  have hcluster : clusterPoints cs (assignLabels cs [z]) 0 = cs := by
    rw [assignLabels_singleton, clusterPoints_replicate_zero]
  have h1 : List.range 1 = [0] := rfl
  simp [lloydStep, h1, hcluster, hcs]

theorem sqrt_foldr_max (l : List ℚ) :
    Real.sqrt ((l.foldr max 0 : ℚ) : ℝ) =
      (l.map (fun q => Real.sqrt ((q : ℚ) : ℝ))).foldr max 0 := by
  induction l with
  | nil => simp
  | cons a l ih =>
    have hmono : Monotone Real.sqrt := fun x y h => Real.sqrt_le_sqrt h
    simp only [List.foldr_cons, List.map_cons]
    rw [Rat.cast_max, hmono.map_max, ih]

theorem list_sum_getD {M : Type} [AddCommMonoid M] (l : List Point) (f : Point → M) :
    (∑ k ∈ Finset.range l.length, f (l.getD k (0, 0))) = (l.map f).sum := by
  induction l with
  | nil => simp
  | cons a l ih =>
    rw [List.length_cons, Finset.sum_range_succ']
    simp only [List.getD_cons_succ, List.getD_cons_zero, List.map_cons, List.sum_cons]
    rw [ih, add_comm]

theorem map_ratPt_sum (pts : List Point) :
    (pts.map ratPt).sum =
      ((((pts.map Prod.fst).sum : ℚ) : ℝ), (((pts.map Prod.snd).sum : ℚ) : ℝ)) := by
  induction pts with
  | nil => simp [Prod.ext_iff]
  | cons p l ih =>
    simp only [List.map_cons, List.sum_cons, ih, ratPt, Prod.mk_add_mk, Prod.ext_iff]
    constructor <;> push_cast <;> ring

theorem meanPoint_mem_convexHull (pts : List Point) (hne : pts ≠ []) :
    ratPt (meanPoint pts) ∈ convexHull ℝ {x : ℝ × ℝ | ∃ p ∈ pts, ratPt p = x} := by
  have hn : 0 < pts.length := List.length_pos.mpr hne
  have hmem := Finset.centerMass_mem_convexHull (t := Finset.range pts.length)
    (w := fun _ => (1 : ℝ)) (z := fun k => ratPt (pts.getD k (0, 0)))
    (s := {x : ℝ × ℝ | ∃ p ∈ pts, ratPt p = x})
    (fun i _ => zero_le_one)
    (by
      simp only [Finset.sum_const, Finset.card_range, nsmul_eq_mul, mul_one]
      exact_mod_cast hn)
    (fun i hi => by
      refine ⟨pts.getD i (0, 0), ?_, rfl⟩
      rw [List.getD_eq_getElem _ _ (by simpa using hi)]
      exact List.getElem_mem _)
  have hmass : (Finset.range pts.length).centerMass (fun _ => (1 : ℝ))
      (fun k => ratPt (pts.getD k (0, 0))) = ratPt (meanPoint pts) := by
    rw [Finset.centerMass]
    simp only [one_smul, Finset.sum_const, Finset.card_range, nsmul_eq_mul, mul_one]
    rw [list_sum_getD pts ratPt, map_ratPt_sum]
    rw [Prod.smul_mk]
    unfold ratPt meanPoint
    rw [Prod.ext_iff]
    constructor <;>
      · simp only [smul_eq_mul]
        rw [inv_mul_eq_div]
        push_cast
        ring
  rw [← hmass]
  exact hmem

/-! ## Claim theorems -/

section ClaimProofs

attribute [local semireducible] Rat.add Rat.sub Rat.mul Rat.inv Rat.ofScientific

/-- C3: `run_kmeans` is deterministic — two invocations on the same two
input sequences return identical facility positions and labels.  The
source fixes the initialization (`init=initial_locations`), performs a
single run (`n_init=1`) and pins `random_state=0`, so the model is a pure
function of the two sequences. -/
theorem run_kmeans_deterministic (cs1 fs1 cs2 fs2 : List Point)
    (hc : cs1 = cs2) (hf : fs1 = fs2) :
    run_kmeans cs1 fs1 = run_kmeans cs2 fs2 := by
  rw [hc, hf]

/-- Witness for C3 at a concrete input. -/
theorem run_kmeans_deterministic_witness :
    ([(1, 0), (3, 0)] : List Point) = [(1, 0), (3, 0)] ∧
    ([(0, 0)] : List Point) = [(0, 0)] ∧
    run_kmeans [(1, 0), (3, 0)] [(0, 0)] = run_kmeans [(1, 0), (3, 0)] [(0, 0)] :=
  ⟨rfl, rfl, run_kmeans_deterministic [(1, 0), (3, 0)] [(0, 0)] [(1, 0), (3, 0)] [(0, 0)] rfl rfl⟩

/-- C4 (code bug evidence): `clear_customers` does NOT reset the stored
optimization result.  After adding customers (0,0) and (2,0) and facility
(1,0), calculating (which stores facilities `[(1,0)]` and labels `[0,0]`),
clearing all customers, and adding the single customer (5,5), the stale
result is still present: the stored labels `[0,0]` describe two customers
while only one customer exists, the inconsistent state that crashes the
plotter's boolean-mask selection on the next redraw. -/
theorem clear_customers_keeps_stale_result :
    staleResultState.optimal_facility_locations = some [(1, 0)] ∧
    staleResultState.cluster_labels = some [0, 0] ∧
    staleResultState.customer_data = [(5, 5)] :=
  ⟨by decide, by decide, by decide⟩

/-- C5: if the clustering call invoked by the calculate action fails, the
failure is surfaced as an error message and the data store is returned
unchanged — the result fields are never partially set. -/
theorem run_calculation_failure_leaves_state_unchanged (dm : DataManager)
    (hc : dm.customer_data ≠ []) (hf : dm.initial_facility_locations ≠ [])
    (hfail : run_kmeans_opt dm.customer_data dm.initial_facility_locations = none) :
    run_calculation dm = (dm, CalcMsg.calcError) := by
  simp [run_calculation, hc, hf, hfail]

/-- Witness for C5: one customer, two initial facilities — the clustering
call fails and the state is unchanged. -/
theorem run_calculation_failure_witness :
    (⟨[(0, 0)], [(0, 0), (1, 1)], none, none⟩ : DataManager).customer_data ≠ [] ∧
    (⟨[(0, 0)], [(0, 0), (1, 1)], none, none⟩ : DataManager).initial_facility_locations ≠ [] ∧
    run_kmeans_opt [(0, 0)] [(0, 0), (1, 1)] = none ∧
    run_calculation ⟨[(0, 0)], [(0, 0), (1, 1)], none, none⟩ =
      (⟨[(0, 0)], [(0, 0), (1, 1)], none, none⟩, CalcMsg.calcError) :=
  ⟨by decide, by decide, by decide,
    run_calculation_failure_leaves_state_unchanged
      ⟨[(0, 0)], [(0, 0), (1, 1)], none, none⟩ (by decide) (by decide) (by decide)⟩

/-- C7: the clustering call fails exactly when the customer sequence is
empty, the initial facility sequence is empty, or the number of initial
facilities exceeds the number of customers. -/
theorem run_kmeans_opt_error_conditions (cs fs : List Point) :
    run_kmeans_opt cs fs = none ↔
      cs = [] ∨ fs = [] ∨ cs.length < fs.length := by
  by_cases h : cs = [] ∨ fs = [] ∨ cs.length < fs.length
  · simp [run_kmeans_opt, h]
  · simp [run_kmeans_opt, h]

/-- C9: `add_customer` appends exactly `(x, y)` to the end of the customer
sequence and changes nothing else, and `add_initial_facility` appends
exactly `(x, y)` to the end of the initial facility sequence and changes
nothing else; in particular a stored optimization result survives both. -/
theorem add_point_appends_and_preserves_rest (dm : DataManager) (x y : ℚ) :
    dm.add_customer x y =
      { dm with customer_data := dm.customer_data ++ [(x, y)] } ∧
    dm.add_initial_facility x y =
      { dm with initial_facility_locations :=
          dm.initial_facility_locations ++ [(x, y)] } ∧
    (dm.add_customer x y).optimal_facility_locations = dm.optimal_facility_locations ∧
    (dm.add_customer x y).cluster_labels = dm.cluster_labels ∧
    (dm.add_initial_facility x y).optimal_facility_locations =
      dm.optimal_facility_locations ∧
    (dm.add_initial_facility x y).cluster_labels = dm.cluster_labels :=
  ⟨rfl, rfl, rfl, rfl, rfl, rfl⟩

/-- C10: the stored optimal facility locations and cluster labels are
either both absent or both present: the invariant holds initially and is
preserved by every data-store operation; `set_optimal_facilities` sets
both together and `clear_facilities` resets both together. -/
theorem result_fields_set_and_cleared_together :
    resultFieldsAligned DataManager.init ∧
    ∀ dm : DataManager, resultFieldsAligned dm →
      (∀ x y : ℚ, resultFieldsAligned (dm.add_customer x y)) ∧
      (∀ x y : ℚ, resultFieldsAligned (dm.add_initial_facility x y)) ∧
      resultFieldsAligned dm.clear_customers ∧
      resultFieldsAligned dm.clear_facilities ∧
      (∀ (locations : List Point) (labels : List ℕ),
        resultFieldsAligned (dm.set_optimal_facilities locations labels)) ∧
      (∀ rows : List Point, resultFieldsAligned (dm.importCustomersRows rows)) ∧
      (∀ rows : List Point, resultFieldsAligned (dm.importFacilitiesRows rows)) :=
  ⟨rfl, fun _ h =>
    ⟨fun _ _ => h, fun _ _ => h, h, rfl, fun _ _ => rfl, fun _ => h, fun _ => h⟩⟩

/-- Witness for C10 at a concrete state. -/
theorem result_fields_set_and_cleared_together_witness :
    resultFieldsAligned (DataManager.init.set_optimal_facilities [(1, 0)] [0]) :=
  ((result_fields_set_and_cleared_together.2 DataManager.init rfl).2.2.2.2.1) [(1, 0)] [0]

/-- C1: `run_kmeans` performs a single run of Lloyd's algorithm: the
centroids start at exactly the given initial facility coordinates and are
updated by `lloydStep` until they stop moving or the iteration cap is
reached; the returned labels assign every customer to its nearest final
centroid by (squared) Euclidean distance with ties broken by lowest
centroid index; and each step recomputes every centroid as the arithmetic
mean of its currently assigned customers, a centroid with no assigned
customers keeping its previous position. -/
theorem run_kmeans_single_lloyd_run (cs fs : List Point)
    (hcs : cs ≠ []) (hfs : fs ≠ []) :
    (∃ t, t ≤ maxIter ∧
        (run_kmeans cs fs).1 = (lloydStep cs)^[t] fs ∧
        (lloydStep cs ((run_kmeans cs fs).1) = (run_kmeans cs fs).1 ∨ t = maxIter)) ∧
    (run_kmeans cs fs).2 = List.map (nearestIdx ((run_kmeans cs fs).1)) cs ∧
    (∀ (zs : List Point) (c : Point), zs ≠ [] →
        nearestIdx zs c < zs.length ∧
        (∀ j, j < zs.length →
          sqDist c (zs.getD (nearestIdx zs c) (0, 0)) ≤ sqDist c (zs.getD j (0, 0))) ∧
        (∀ j, j < nearestIdx zs c →
          sqDist c (zs.getD (nearestIdx zs c) (0, 0)) < sqDist c (zs.getD j (0, 0)))) ∧
    (∀ (zs : List Point) (i : ℕ), i < zs.length →
        (lloydStep cs zs).length = zs.length ∧
        (clusterPoints cs (assignLabels cs zs) i = [] →
          (lloydStep cs zs).getD i (0, 0) = zs.getD i (0, 0)) ∧
        (clusterPoints cs (assignLabels cs zs) i ≠ [] →
          (lloydStep cs zs).getD i (0, 0) =
            meanPoint (clusterPoints cs (assignLabels cs zs) i))) := by
  refine ⟨?_, rfl, ?_, ?_⟩
  · obtain ⟨t, ht, heq, hconv⟩ := lloydIter_trace cs maxIter fs
    exact ⟨t, ht, heq, hconv⟩
  · exact fun zs c h => nearestIdx_spec zs c h
  · intro zs i hi
    refine ⟨lloydStep_length cs zs, ?_, ?_⟩
    · intro h
      rw [lloydStep_getD cs zs i hi, if_pos h]
    · intro h
      rw [lloydStep_getD cs zs i hi, if_neg h]

/-- Witness for C1 at a concrete input. -/
theorem run_kmeans_single_lloyd_run_witness :
    ([(1, 0), (3, 0)] : List Point) ≠ [] ∧ ([(0, 0)] : List Point) ≠ [] ∧
    ((∃ t, t ≤ maxIter ∧
        (run_kmeans [(1, 0), (3, 0)] [(0, 0)]).1 =
          (lloydStep [(1, 0), (3, 0)])^[t] [(0, 0)] ∧
        (lloydStep [(1, 0), (3, 0)] ((run_kmeans [(1, 0), (3, 0)] [(0, 0)]).1) =
            (run_kmeans [(1, 0), (3, 0)] [(0, 0)]).1 ∨ t = maxIter)) ∧
    (run_kmeans [(1, 0), (3, 0)] [(0, 0)]).2 =
      List.map (nearestIdx ((run_kmeans [(1, 0), (3, 0)] [(0, 0)]).1)) [(1, 0), (3, 0)] ∧
    (∀ (zs : List Point) (c : Point), zs ≠ [] →
        nearestIdx zs c < zs.length ∧
        (∀ j, j < zs.length →
          sqDist c (zs.getD (nearestIdx zs c) (0, 0)) ≤ sqDist c (zs.getD j (0, 0))) ∧
        (∀ j, j < nearestIdx zs c →
          sqDist c (zs.getD (nearestIdx zs c) (0, 0)) < sqDist c (zs.getD j (0, 0)))) ∧
    (∀ (zs : List Point) (i : ℕ), i < zs.length →
        (lloydStep [(1, 0), (3, 0)] zs).length = zs.length ∧
        (clusterPoints [(1, 0), (3, 0)] (assignLabels [(1, 0), (3, 0)] zs) i = [] →
          (lloydStep [(1, 0), (3, 0)] zs).getD i (0, 0) = zs.getD i (0, 0)) ∧
        (clusterPoints [(1, 0), (3, 0)] (assignLabels [(1, 0), (3, 0)] zs) i ≠ [] →
          (lloydStep [(1, 0), (3, 0)] zs).getD i (0, 0) =
            meanPoint (clusterPoints [(1, 0), (3, 0)]
              (assignLabels [(1, 0), (3, 0)] zs) i)))) :=
  ⟨by decide, by decide,
    run_kmeans_single_lloyd_run [(1, 0), (3, 0)] [(0, 0)] (by decide) (by decide)⟩

/-- C2: with a single initial facility, `run_kmeans` returns the arithmetic
mean of all customers as the single facility and labels every customer 0. -/
theorem run_kmeans_k1_mean (cs : List Point) (f : Point) (hcs : cs ≠ []) :
    run_kmeans cs [f] = ([meanPoint cs], List.replicate cs.length 0) := by
  have hstep : ∀ z : Point, lloydStep cs [z] = [meanPoint cs] := lloydStep_singleton cs hcs
  have hfix : lloydStep cs [meanPoint cs] = [meanPoint cs] := hstep (meanPoint cs)
  have hiter : lloydIter maxIter cs [f] = [meanPoint cs] := by
    rw [show maxIter = 299 + 1 from rfl, lloydIter_succ]
    by_cases h : lloydStep cs [f] = [f]
    · rw [if_pos h]
      exact h.symm.trans (hstep f)
    · rw [if_neg h, hstep f]
      exact lloydIter_fix cs [meanPoint cs] hfix 299
  show (lloydIter maxIter cs [f], assignLabels cs (lloydIter maxIter cs [f])) = _
  rw [hiter, assignLabels_singleton]

/-- Witness for C2 at a concrete input. -/
theorem run_kmeans_k1_mean_witness :
    ([(1, 0), (3, 0)] : List Point) ≠ [] ∧
    run_kmeans [(1, 0), (3, 0)] [(0, 0)] =
      ([meanPoint [(1, 0), (3, 0)]],
        List.replicate ([(1, 0), (3, 0)] : List Point).length 0) :=
  ⟨by decide, run_kmeans_k1_mean [(1, 0), (3, 0)] (0, 0) (by decide)⟩

/-- C6 counterexample: a facility whose final cluster is empty need not sit
at its initial position.  With customers (0,0), (10,0), (1,2), (9,2) and
initial facilities (-3,0), (13,0), (5,3), the third facility first captures
(1,2) and (9,2) and moves to their mean (5,2); both are then stolen by the
other two facilities, so the run converges with the third cluster empty and
the third facility at (5,2), not at its initial (5,3). -/
theorem facility_with_empty_cluster_moves_from_initial :
    clusterPoints [(0, 0), (10, 0), (1, 2), (9, 2)]
        ((run_kmeans [(0, 0), (10, 0), (1, 2), (9, 2)] [(-3, 0), (13, 0), (5, 3)]).2) 2 = [] ∧
    ((run_kmeans [(0, 0), (10, 0), (1, 2), (9, 2)] [(-3, 0), (13, 0), (5, 3)]).1).getD 2 (0, 0) ≠
      (([(-3, 0), (13, 0), (5, 3)] : List Point)).getD 2 (0, 0) :=
  ⟨by decide, by decide⟩

/-- C6 (amended): whenever the returned centroids are a fixed point of the
update step (i.e. the run converged before the iteration cap), every
facility whose cluster is non-empty lies in the convex hull of the
customers assigned to it; a facility with an empty cluster merely keeps
its current position, which the counterexample shows need not be its
initial one. -/
theorem converged_facility_in_cluster_hull (cs fs : List Point) (i : ℕ)
    (hfix : lloydStep cs ((run_kmeans cs fs).1) = (run_kmeans cs fs).1)
    (hi : i < ((run_kmeans cs fs).1).length)
    (hne : clusterPoints cs ((run_kmeans cs fs).2) i ≠ []) :
    ratPt (((run_kmeans cs fs).1).getD i (0, 0)) ∈
      convexHull ℝ
        {x : ℝ × ℝ | ∃ p ∈ clusterPoints cs ((run_kmeans cs fs).2) i, ratPt p = x} := by
  have h2 : (run_kmeans cs fs).2 = assignLabels cs ((run_kmeans cs fs).1) := rfl
  rw [h2] at hne ⊢
  have hg := lloydStep_getD cs ((run_kmeans cs fs).1) i hi
  rw [hfix, if_neg hne] at hg
  rw [hg]
  exact meanPoint_mem_convexHull _ hne

/-- Witness for the amended C6 at a concrete converged input. -/
theorem converged_facility_in_cluster_hull_witness :
    lloydStep [(0, 0), (10, 0), (1, 2), (9, 2)]
        ((run_kmeans [(0, 0), (10, 0), (1, 2), (9, 2)] [(-3, 0), (13, 0), (5, 3)]).1) =
      (run_kmeans [(0, 0), (10, 0), (1, 2), (9, 2)] [(-3, 0), (13, 0), (5, 3)]).1 ∧
    0 < ((run_kmeans [(0, 0), (10, 0), (1, 2), (9, 2)] [(-3, 0), (13, 0), (5, 3)]).1).length ∧
    clusterPoints [(0, 0), (10, 0), (1, 2), (9, 2)]
      ((run_kmeans [(0, 0), (10, 0), (1, 2), (9, 2)] [(-3, 0), (13, 0), (5, 3)]).2) 0 ≠ [] ∧
    ratPt (((run_kmeans [(0, 0), (10, 0), (1, 2), (9, 2)]
        [(-3, 0), (13, 0), (5, 3)]).1).getD 0 (0, 0)) ∈
      convexHull ℝ
        {x : ℝ × ℝ | ∃ p ∈ clusterPoints [(0, 0), (10, 0), (1, 2), (9, 2)]
          ((run_kmeans [(0, 0), (10, 0), (1, 2), (9, 2)] [(-3, 0), (13, 0), (5, 3)]).2) 0,
          ratPt p = x} :=
  ⟨by decide, by decide, by decide,
    converged_facility_in_cluster_hull [(0, 0), (10, 0), (1, 2), (9, 2)]
      [(-3, 0), (13, 0), (5, 3)] 0 (by decide) (by decide) (by decide)⟩

/-- C8: the service radius drawn for facility `i` — the square root of the
embedded `radiusSqOf` — equals the maximum Euclidean distance from the
facility to the customers labelled `i` (a fold of `max` over the cluster's
distances), and the squared radius is zero when no customer has label `i`. -/
theorem service_radius_is_max_distance (cs : List Point) (ls : List ℕ) (z : Point) (i : ℕ) :
    Real.sqrt ((radiusSqOf cs ls z i : ℚ) : ℝ) =
      ((clusterPoints cs ls i).map (fun p => Real.sqrt ((sqDist p z : ℚ) : ℝ))).foldr max 0 ∧
    (clusterPoints cs ls i = [] → radiusSqOf cs ls z i = 0) := by
  constructor
  · by_cases h : clusterPoints cs ls i = []
    · simp [radiusSqOf, h]
    · rw [show radiusSqOf cs ls z i =
          ((clusterPoints cs ls i).map (fun p => sqDist p z)).foldr max 0 from by
            simp [radiusSqOf, h]]
      rw [sqrt_foldr_max, List.map_map]
      rfl
  · intro h
    simp [radiusSqOf, h]

/-- Witness for C8: an empty cluster has squared radius zero. -/
theorem service_radius_is_max_distance_witness :
    clusterPoints [(0, 0)] [0] 1 = [] ∧ radiusSqOf [(0, 0)] [0] (5, 5) 1 = 0 :=
  ⟨by decide, (service_radius_is_max_distance [(0, 0)] [0] (5, 5) 1).2 (by decide)⟩

end ClaimProofs

end FacilityLocation
